import Mathlib

/-!
Shallow embedding of `smart-leak-analyzer.py`.

Network interactions are modelled as oracle inputs: each HTTP call's outcome
is an `Except Unit R` value where `Except.error ()` stands for a raised
transport exception and `Except.ok r` for a returned response `r`.  The
Python functions are translated into total Lean functions over these
outcomes; `try/except` blocks become pattern matches on the `Except` value.
Python falsiness of an optional string (`None` or `""`) is `strFalsy`.
-/

/-- Python falsiness of an optional string: `None` and `""` are falsy. -/
def strFalsy : Option String → Bool
  | none => true
  | some s => s.isEmpty

/-- Response of `POST /intelligent/search`: HTTP status plus the result of
`res.json().get('id')`; the inner `Except` models `res.json()` itself
raising (caught by the surrounding handler). -/
structure SearchResp where
  status : Nat
  idField : Except Unit (Option String)

/-- Embedding of `IntelXService.search` (lines 73-91): on a 200 response
return `res.json().get('id')`; on any other status, a transport exception,
or a JSON-decoding exception, return `None`. -/
def search : Except Unit SearchResp → Option String
  | Except.error _ => none
  | Except.ok r =>
    if r.status = 200 then
      match r.idField with
      | Except.error _ => none
      | Except.ok v => v
    else none

/-- One result record, as consumed by `main` and `get_preview`: the
metadata fields read via `item.get(...)`. -/
structure Rec where
  name : Option String
  date : Option String
  did : Option String
  storageid : Option String
  bucket : Option String
deriving DecidableEq

/-- Response of `GET /intelligent/search/result`: HTTP status plus the
result of `res.json().get('records', [])` (inner `Except` models `res.json()`
raising). -/
structure ResultsResp where
  status : Nat
  recordsField : Except Unit (List Rec)

/-- Embedding of `IntelXService.get_results` (lines 93-101): the records
list on a 200 response, `[]` on any non-200 status or exception. -/
def get_results : Except Unit ResultsResp → List Rec
  | Except.error _ => []
  | Except.ok r =>
    if r.status = 200 then
      match r.recordsField with
      | Except.error _ => []
      | Except.ok l => l
    else []

/-- A plain-text HTTP response: status code and body text. -/
structure TextResp where
  status : Nat
  text : String
deriving DecidableEq

/-- Embedding of `IntelXService.get_preview` (lines 103-122).  `p` is the
outcome of the `/file/preview` request, `v` the outcome the `/file/view`
request would have (it is only consulted on the fallback path).  The single
`try` block wraps both requests, so an exception in either one falls
through to `return None`. -/
def get_preview (p v : Except Unit TextResp) : Option String :=
  match p with
  | Except.error _ => none
  | Except.ok r =>
    if r.status = 200 ∧ 10 < r.text.length then some r.text
    else
      match v with
      | Except.error _ => none
      | Except.ok rv => if rv.status = 200 then some rv.text else none

/-- Control-flow observation of `get_preview`: whether the `/file/view`
request (line 117) is issued.  It is reached exactly when the preview
request returned (did not raise) and its response failed the acceptance
test of line 111. -/
def get_preview_attempts_view (p : Except Unit TextResp) : Bool :=
  match p with
  | Except.error _ => false
  | Except.ok r => if r.status = 200 ∧ 10 < r.text.length then false else true

/-- Whether a view-request outcome counts as failed: it raised, or it
returned a non-200 status. -/
def view_attempt_fails (v : Except Unit TextResp) : Bool :=
  match v with
  | Except.error _ => true
  | Except.ok rv => if rv.status = 200 then false else true

/-- Embedding of `IntelXService.__init__` (lines 67-71): a falsy
`INTELX_KEY` calls `sys.exit(1)`, modelled as `Except.error ()`. -/
def intelx_init (key : Option String) : Except Unit Unit :=
  if strFalsy key then Except.error () else Except.ok ()

/-- Embedding of `AIAnalyzer.__init__` (lines 125-130): returns the
`active` flag; a missing `OPENAI_API_KEY` only logs a warning and disables
the AI analysis, it never exits. -/
def ai_init (key : Option String) : Bool :=
  !strFalsy key

/-- JSON values as produced by `json.loads`.  Numbers keep their source
lexeme (so integers and floats are both represented without committing to
a numeric semantics); strings are lists of characters. -/
inductive Json where
  | null : Json
  | bool (b : Bool) : Json
  | num (lexeme : List Char) : Json
  | str (s : List Char) : Json
  | arr (items : List Json) : Json
  | obj (members : List (List Char × Json)) : Json

/-- JSON insignificant whitespace (space, tab, newline, carriage return),
as skipped by Python's `json` decoder. -/
def skipWs : List Char → List Char
  | [] => []
  | c :: cs =>
    if c = ' ' ∨ c = '\t' ∨ c = '\n' ∨ c = '\r' then skipWs cs else c :: cs

/-- Value of one hexadecimal digit. -/
def hexVal (c : Char) : Option Nat :=
  if '0' ≤ c ∧ c ≤ '9' then some (c.toNat - 48)
  else if 'a' ≤ c ∧ c ≤ 'f' then some (c.toNat - 87)
  else if 'A' ≤ c ∧ c ≤ 'F' then some (c.toNat - 55)
  else none

/-- Single-character JSON string escapes. -/
def escChar (c : Char) : Option Char :=
  if c = '"' then some '"'
  else if c = '\\' then some '\\'
  else if c = '/' then some '/'
  else if c = 'b' then some (Char.ofNat 8)
  else if c = 'f' then some (Char.ofNat 12)
  else if c = 'n' then some '\n'
  else if c = 'r' then some '\r'
  else if c = 't' then some '\t'
  else none

/-- Scan a JSON string body (the opening quote already consumed), returning
the decoded characters and the remaining input.  Raw control characters are
rejected as in Python's strict mode; `\uXXXX` escapes are decoded with
`Char.ofNat` (surrogate-pair recombination is not modelled).  Fuel is the
recursion bound; callers pass at least `length + 1`, which always
suffices since each step consumes input. -/
def parseStringBody : Nat → List Char → Option (List Char × List Char)
  | 0, _ => none
  | Nat.succ f, cs =>
    match cs with
    | [] => none
    | c :: rest =>
      if c = '"' then some ([], rest)
      else if c = '\\' then
        match rest with
        | [] => none
        | e :: rest2 =>
          if e = 'u' then
            match rest2 with
            | h1 :: h2 :: h3 :: h4 :: rest3 =>
              match hexVal h1, hexVal h2, hexVal h3, hexVal h4 with
              | some a, some b, some c2, some d =>
                match parseStringBody f rest3 with
                | some (s, rem) =>
                  some (Char.ofNat (((a * 16 + b) * 16 + c2) * 16 + d) :: s, rem)
                | none => none
              | _, _, _, _ => none
            | _ => none
          else
            match escChar e with
            | some ec =>
              match parseStringBody f rest2 with
              | some (s, rem) => some (ec :: s, rem)
              | none => none
            | none => none
      else if c.toNat < 32 then none
      else
        match parseStringBody f rest with
        | some (s, rem) => some (c :: s, rem)
        | none => none

/-- Optional fraction part `.digits` of a JSON number; mirrors the
`(\.\d+)?` group of Python's number regex (absent unless at least one
digit follows the dot). -/
def parseFrac (cs : List Char) : List Char × List Char :=
  match cs with
  | '.' :: r =>
    let p := List.span Char.isDigit r
    if p.1 = [] then ([], cs) else ('.' :: p.1, p.2)
  | _ => ([], cs)

/-- Optional exponent part of a JSON number; mirrors the
`([eE][-+]?\d+)?` group of Python's number regex. -/
def parseExp (cs : List Char) : List Char × List Char :=
  match cs with
  | [] => ([], cs)
  | e :: r =>
    if e = 'e' ∨ e = 'E' then
      match r with
      | [] => ([], cs)
      | s :: r2 =>
        if s = '+' ∨ s = '-' then
          let p := List.span Char.isDigit r2
          if p.1 = [] then ([], cs) else (e :: s :: p.1, p.2)
        else
          let p := List.span Char.isDigit r
          if p.1 = [] then ([], cs) else (e :: p.1, p.2)
    else ([], cs)

/-- Scan a JSON number lexeme, mirroring Python's
`(-?(?:0|[1-9]\d*))(\.\d+)?([eE][-+]?\d+)?`: an integer part without
leading zeros, then optional fraction and exponent.  Returns the lexeme
and the remaining input, or `none` when no number starts here. -/
def parseNumber (cs : List Char) : Option (List Char × List Char) :=
  let negrest : List Char × List Char :=
    match cs with
    | [] => ([], [])
    | c :: r => if c = '-' then ([c], r) else ([], cs)
  match negrest.2 with
  | [] => none
  | d :: r =>
    if d = '0' then
      let fr := parseFrac r
      let ex := parseExp fr.2
      some (negrest.1 ++ [d] ++ fr.1 ++ ex.1, ex.2)
    else if d.isDigit then
      let p := List.span Char.isDigit r
      let fr := parseFrac p.2
      let ex := parseExp fr.2
      some (negrest.1 ++ (d :: p.1) ++ fr.1 ++ ex.1, ex.2)
    else none

mutual

/-- Parse one JSON value at the head of the input (whitespace already
skipped), returning it with the remaining input.  Fuel bounds the
recursion; each recursive call consumes input, so any fuel above the input
length suffices. -/
def parseValue : Nat → List Char → Option (Json × List Char)
  | 0, _ => none
  | Nat.succ f, cs =>
    match cs with
    | [] => none
    | c :: rest =>
      if c = '"' then
        match parseStringBody (rest.length + 1) rest with
        | some (s, rem) => some (Json.str s, rem)
        | none => none
      else if c = '{' then
        match skipWs rest with
        | '}' :: rem => some (Json.obj [], rem)
        | cs2 =>
          match parseMembers f cs2 with
          | some (kvs, rem) => some (Json.obj kvs, rem)
          | none => none
      else if c = '[' then
        match skipWs rest with
        | ']' :: rem => some (Json.arr [], rem)
        | cs2 =>
          match parseItems f cs2 with
          | some (xs, rem) => some (Json.arr xs, rem)
          | none => none
      else if c = 't' then
        match rest with
        | 'r' :: 'u' :: 'e' :: rem => some (Json.bool true, rem)
        | _ => none
      else if c = 'f' then
        match rest with
        | 'a' :: 'l' :: 's' :: 'e' :: rem => some (Json.bool false, rem)
        | _ => none
      else if c = 'n' then
        match rest with
        | 'u' :: 'l' :: 'l' :: rem => some (Json.null, rem)
        | _ => none
      else if c = '-' ∨ c.isDigit then
        match parseNumber (c :: rest) with
        | some (lex, rem) => some (Json.num lex, rem)
        | none => none
      else none

/-- Parse the members of a JSON object after its opening brace (input
whitespace-skipped, known not to start with a closing brace). -/
def parseMembers : Nat → List Char → Option (List (List Char × Json) × List Char)
  | 0, _ => none
  | Nat.succ f, cs =>
    match cs with
    | '"' :: rest =>
      match parseStringBody (rest.length + 1) rest with
      | some (key, rem1) =>
        match skipWs rem1 with
        | ':' :: rem2 =>
          match parseValue f (skipWs rem2) with
          | some (v, rem3) =>
            match skipWs rem3 with
            | ',' :: rem4 =>
              match parseMembers f (skipWs rem4) with
              | some (kvs, rem5) => some ((key, v) :: kvs, rem5)
              | none => none
            | '}' :: rem4 => some ([(key, v)], rem4)
            | _ => none
          | none => none
        | _ => none
      | none => none
    | _ => none

/-- Parse the items of a JSON array after its opening bracket (input
whitespace-skipped, known not to start with a closing bracket). -/
def parseItems : Nat → List Char → Option (List Json × List Char)
  | 0, _ => none
  | Nat.succ f, cs =>
    match parseValue f cs with
    | some (v, rem) =>
      match skipWs rem with
      | ',' :: rem2 =>
        match parseItems f (skipWs rem2) with
        | some (xs, rem3) => some (v :: xs, rem3)
        | none => none
      | ']' :: rem2 => some ([v], rem2)
      | _ => none
    | none => none

end

/-- Model of Python's `json.loads` on the decoded text: parse one value
surrounded by optional whitespace; trailing non-whitespace input is an
error (`Extra data`), modelled as `none`.  `NaN`/`Infinity` constants are
not modelled. -/
def json_loads (cs : List Char) : Option Json :=
  match parseValue (cs.length + 1) (skipWs cs) with
  | some (v, rem) => if skipWs rem = [] then some v else none
  | none => none

/-- Index of the last occurrence of `c` in a list, if any. -/
def lastIdxOf (c : Char) : List Char → Option Nat
  | [] => none
  | x :: xs =>
    match lastIdxOf c xs with
    | some j => some (j + 1)
    | none => if x = c then some 0 else none

/-- Index of the first occurrence of `c` in a list, if any. -/
def firstIdxOf (c : Char) : List Char → Option Nat
  | [] => none
  | x :: xs => if x = c then some 0 else (firstIdxOf c xs).map (· + 1)

/-- Model of `re.search` with the greedy pattern of line 165 applied to the
raw response: the match, if any, starts at the leftmost opening brace that
has a closing brace strictly after it and extends to the last closing brace
of the whole text. -/
def extractBraces (cs : List Char) : Option (List Char) :=
  match lastIdxOf '}' cs with
  | none => none
  | some j =>
    match firstIdxOf '{' (cs.take j) with
    | none => none
    | some i => some ((cs.drop i).take (j + 1 - i))

/-- Extraction step of `AIAnalyzer.analyze_dump` (lines 163-167): greedy
brace search on the raw response followed by `json.loads`; `none` when no
match is found or parsing raises (caught by the handler of line 168). -/
def extract_and_parse (raw : List Char) : Option Json :=
  match extractBraces raw with
  | none => none
  | some sub => json_loads sub

/-- Embedding of `AIAnalyzer.analyze_dump` (lines 132-170).  `active` is
the flag set by `AIAnalyzer.__init__`; `call` is the outcome of the chat
completion request up to reading `completion.choices[0].message.content`
(`Except.error ()` when it raises).  The truncation of the content to its
first 3000 characters (line 137) only shapes the outgoing prompt, so the
result depends on the inputs modelled here. -/
def analyze_dump (active : Bool) (call : Except Unit (List Char)) : Option Json :=
  if active = false then none
  else
    match call with
    | Except.error _ => none
    | Except.ok raw => extract_and_parse raw

/-- Observable outcome of one iteration of the per-record loop of `main`
(lines 190-220): the record, whether the content-inaccessible warning of
line 200 was logged, the preview snippet printed (first 100 characters,
line 203), whether `ai.analyze_dump` was invoked, and the structured
analysis obtained. -/
structure RecOutcome where
  record : Rec
  contentWarn : Bool
  previewSnippet : Option String
  aiCalled : Bool
  analysis : Option Json

/-- One iteration of the per-record loop of `main` (lines 190-220):
`content` is the result of `get_preview`; a falsy content (`None` or `""`)
logs a warning and skips the record; otherwise the snippet is printed and
`analyze_dump` is called. -/
def recordStep (rec : Rec) (content : Option String) (active : Bool)
    (aiResp : Except Unit (List Char)) : RecOutcome :=
  match content with
  | none => ⟨rec, true, none, false, none⟩
  | some s =>
    if s.isEmpty then ⟨rec, true, none, false, none⟩
    else ⟨rec, false, some (s.take 100), true, analyze_dump active aiResp⟩

/-- One run's environment: the two credentials and the outcome of every
network interaction the run may perform (`previewAt i`, `viewAt i`, `aiAt i`
are the outcomes of the preview, view, and completion requests for the
record at index `i`). -/
structure World where
  intelxKey : Option String
  openaiKey : Option String
  searchResp : Except Unit SearchResp
  resultsResp : Except Unit ResultsResp
  previewAt : Nat → Except Unit TextResp
  viewAt : Nat → Except Unit TextResp
  aiAt : Nat → Except Unit (List Char)

/-- Embedding of `main` (lines 172-220): construct the two services (a
falsy `INTELX_KEY` exits, modelled as `Except.error ()`), search (a falsy
session id aborts with no records processed), list the results, then run
the per-record loop over `enumerate(records[:5])`.  The value returned is
the list of per-record outcomes. -/
def main_run (w : World) : Except Unit (List RecOutcome) :=
  match intelx_init w.intelxKey with
  | Except.error _ => Except.error ()
  | Except.ok _ =>
    let active := ai_init w.openaiKey
    match search w.searchResp with
    | none => Except.ok []
    | some sid =>
      if sid.isEmpty then Except.ok []
      else
        let records := get_results w.resultsResp
        Except.ok ((records.take 5).enum.map (fun p =>
          recordStep p.2 (get_preview (w.previewAt p.1) (w.viewAt p.1)) active (w.aiAt p.1)))

/-- A character absent from a list has no last index in it. -/
lemma lastIdxOf_eq_none {c : Char} {xs : List Char} (h : c ∉ xs) :
    lastIdxOf c xs = none := by
  induction xs with
  | nil => rfl
  | cons x xs ih =>
    have hx : ¬x = c := fun hxc => h (hxc ▸ List.mem_cons_self x xs)
    have hxs : c ∉ xs := fun hm => h (List.mem_cons_of_mem x hm)
    simp [lastIdxOf, ih hxs, hx]

/-- The last index in a concatenation comes from the right part when
present there, else from the left part. -/
lemma lastIdxOf_append (c : Char) (xs ys : List Char) :
    lastIdxOf c (xs ++ ys) =
      match lastIdxOf c ys with
      | some j => some (xs.length + j)
      | none => lastIdxOf c xs := by
  induction xs with
  | nil => cases h : lastIdxOf c ys <;> simp [h, lastIdxOf]
  | cons x xs ih =>
    rw [List.cons_append]
    show (match lastIdxOf c (xs ++ ys) with
      | some j => some (j + 1)
      | none => if x = c then some 0 else none) = _
    rw [ih]
    cases h : lastIdxOf c ys with
    | some j => simp [h]; omega
    | none =>
      simp only [h]
      rfl

/-- When a list ends in `c`, the last index of `c` is the last position. -/
lemma lastIdxOf_of_getLast {c : Char} {ys : List Char}
    (h : ys.getLast? = some c) : lastIdxOf c ys = some (ys.length - 1) := by
  induction ys with
  | nil => simp at h
  | cons y ys ih =>
    cases ys with
    | nil =>
      simp only [List.getLast?_singleton, Option.some_inj] at h
      simp [lastIdxOf, h]
    | cons y2 ys2 =>
      rw [List.getLast?_cons_cons] at h
      have := ih h
      show (match lastIdxOf c (y2 :: ys2) with
        | some j => some (j + 1)
        | none => if y = c then some 0 else none) = _
      rw [this]
      simp only [List.length_cons, Option.some_inj]
      omega

/-- The first occurrence of `c` right after a `c`-free prefix is at the
prefix's length. -/
lemma firstIdxOf_clean_front {c : Char} {pre : List Char}
    (tail : List Char) (h : c ∉ pre) :
    firstIdxOf c (pre ++ (c :: tail)) = some pre.length := by
  induction pre with
  | nil => simp [firstIdxOf]
  | cons x pre ih =>
    have hx : ¬x = c := fun hxc => h (hxc ▸ List.mem_cons_self x pre)
    have hpre : c ∉ pre := fun hm => h (List.mem_cons_of_mem x hm)
    simp [firstIdxOf, hx, ih hpre]

/-- Greedy brace extraction on a text built from a brace-delimited core
surrounded by prose without interfering braces recovers exactly the core. -/
lemma extractBraces_append {pre obj post : List Char}
    (hhead : obj.head? = some '{') (hlast : obj.getLast? = some '}')
    (hpre : '{' ∉ pre) (hpost : '}' ∉ post) :
    extractBraces (pre ++ obj ++ post) = some obj := by
  obtain ⟨tl, rfl⟩ : ∃ tl, obj = '{' :: tl := by
    cases obj with
    | nil => simp at hhead
    | cons o tl =>
      simp only [List.head?_cons, Option.some_inj] at hhead
      exact ⟨tl, by rw [hhead]⟩
  have htl : tl ≠ [] := by
    intro h
    subst h
    simp only [List.getLast?_singleton, Option.some_inj] at hlast
    exact absurd hlast (by decide)
  obtain ⟨m, hm⟩ : ∃ m, tl.length = m + 1 :=
    ⟨tl.length - 1, by cases tl with | nil => exact absurd rfl htl | cons a b => simp⟩
  have hobjlen : ('{' :: tl).length = m + 2 := by simp [hm]
  have hlast' : lastIdxOf '}' ((pre ++ ('{' :: tl)) ++ post) =
      some (pre.length + (m + 1)) := by
    rw [lastIdxOf_append, lastIdxOf_eq_none hpost, lastIdxOf_append,
      lastIdxOf_of_getLast hlast]
    simp [hobjlen]
  have hassoc : pre ++ ('{' :: tl) ++ post = pre ++ (('{' :: tl) ++ post) :=
    List.append_assoc _ _ _
  have htake : (pre ++ ('{' :: tl) ++ post).take (pre.length + (m + 1)) =
      pre ++ ('{' :: (tl ++ post).take m) := by
    rw [hassoc, List.take_append_eq_append_take,
      List.take_of_length_le (by omega)]
    congr 1
    have : pre.length + (m + 1) - pre.length = m + 1 := by omega
    rw [this]
    rfl
  have hfirst : firstIdxOf '{' ((pre ++ ('{' :: tl) ++ post).take
      (pre.length + (m + 1))) = some pre.length := by
    rw [htake]
    exact firstIdxOf_clean_front _ hpre
  have hdrop : (pre ++ ('{' :: tl) ++ post).drop pre.length = ('{' :: tl) ++ post := by
    rw [hassoc]
    exact List.drop_left _ _
  show (match lastIdxOf '}' (pre ++ ('{' :: tl) ++ post) with
    | none => none
    | some j =>
      match firstIdxOf '{' ((pre ++ ('{' :: tl) ++ post).take j) with
      | none => none
      | some i => some (((pre ++ ('{' :: tl) ++ post).drop i).take (j + 1 - i))) =
    some ('{' :: tl)
  rw [hlast']
  simp only [hfirst, hdrop]
  have harith : pre.length + (m + 1) + 1 - pre.length = ('{' :: tl).length := by
    simp [hm]
    omega
  rw [harith]
  congr 1
  exact List.take_left _ _

/-- The per-record loop never changes which record it is processing. -/
lemma recordStep_record (rec : Rec) (content : Option String) (active : Bool)
    (aiResp : Except Unit (List Char)) :
    (recordStep rec content active aiResp).record = rec := by
  cases content with
  | none => rfl
  | some s =>
    show (if s.isEmpty then (⟨rec, true, none, false, none⟩ : RecOutcome)
      else ⟨rec, false, some (s.take 100), true, analyze_dump active aiResp⟩).record = rec
    split <;> rfl

/-- C2: the fallback view request is attempted exactly when the preview
response fails the acceptance condition of line 111 — but that condition
also involves the HTTP status, so the claim's length-only reading fails:
here a 500 preview response with an 11-character body still triggers the
fallback although its length exceeds 10. -/
theorem claim_C2_counterexample :
    get_preview_attempts_view (Except.ok (TextResp.mk 500 "0123456789X")) = true
    ∧ ¬(TextResp.mk 500 "0123456789X").text.length ≤ 10 := by
  decide

/-- C2 (amended): given a preview response, the fallback view endpoint is
attempted if and only if the response fails the acceptance condition of
line 111, that is, unless the status is 200 and the body length exceeds
10. -/
theorem claim_C2_amended (r : TextResp) :
    get_preview_attempts_view (Except.ok r) = true
      ↔ ¬(r.status = 200 ∧ 10 < r.text.length) := by
  by_cases h : r.status = 200 ∧ 10 < r.text.length <;>
    simp [get_preview_attempts_view, h]

/-- C3: the claim asserts a fallback also when the preview request throws,
but the single `try` of lines 109-121 wraps both requests: a transport
exception on the preview request jumps to the handler, so the view
endpoint is never attempted and `get_preview` gives up with `None` even
when the view endpoint would have succeeded. -/
theorem claim_C3_counterexample :
    get_preview_attempts_view (Except.error ()) = false
    ∧ get_preview (Except.error ())
        (Except.ok (TextResp.mk 200 "fallback body text")) = none := by
  exact ⟨rfl, rfl⟩

/-- C3 (amended): the fallback view endpoint is attempted whenever the
preview request returns a response failing the acceptance condition
(non-200 status, or body length at most 10); but when the preview request
throws, no fallback happens and the fetcher gives up directly. -/
theorem claim_C3_amended (r : TextResp)
    (h : ¬(r.status = 200 ∧ 10 < r.text.length)) :
    get_preview_attempts_view (Except.ok r) = true
    ∧ get_preview_attempts_view (Except.error ()) = false := by
  exact ⟨by simp [get_preview_attempts_view, h], rfl⟩

/-- C3 witness: instantiation of the amended claim at a 404 preview
response. -/
theorem claim_C3_witness :
    get_preview_attempts_view (Except.ok (TextResp.mk 404 "")) = true
    ∧ get_preview_attempts_view (Except.error ()) = false :=
  claim_C3_amended (TextResp.mk 404 "") (by decide)

/-- C4: the claim makes a missing language-model key fatal, but
`AIAnalyzer.__init__` (lines 125-130) only logs a warning and disables the
AI analysis: here a run with the breach-intel key set and no language-model
key completes normally (returning `Except.ok`) instead of stopping. -/
theorem claim_C4_counterexample :
    strFalsy none = true
    ∧ main_run (World.mk (some "k") none (Except.error ()) (Except.error ())
        (fun _ => Except.error ()) (fun _ => Except.error ())
        (fun _ => Except.error ())) = Except.ok [] := by
  exact ⟨rfl, rfl⟩

/-- C4 (amended): a missing (or empty) breach-intel key is fatal and stops
the run immediately; a missing language-model key is not fatal — the run
always proceeds past configuration, with the AI analysis merely disabled
(`active` is set exactly when the language-model key is non-falsy). -/
theorem claim_C4_amended (w : World) :
    (strFalsy w.intelxKey = true → main_run w = Except.error ())
    ∧ (strFalsy w.intelxKey = false → ∃ outs, main_run w = Except.ok outs)
    ∧ ai_init w.openaiKey = !strFalsy w.openaiKey := by
  refine ⟨fun h => ?_, fun h => ?_, rfl⟩
  · simp [main_run, intelx_init, h]
  · simp only [main_run, intelx_init, h, Bool.false_eq_true, if_false]
    cases hs : search w.searchResp with
    | none => exact ⟨[], rfl⟩
    | some sid =>
      by_cases he : sid.isEmpty <;> simp [he]

/-- C4 witness: instantiation of the amended claim at a world whose
breach-intel key is absent. -/
theorem claim_C4_witness :
    main_run (World.mk none (some "k") (Except.error ()) (Except.error ())
      (fun _ => Except.error ()) (fun _ => Except.error ())
      (fun _ => Except.error ())) = Except.error () :=
  (claim_C4_amended (World.mk none (some "k") (Except.error ()) (Except.error ())
    (fun _ => Except.error ()) (fun _ => Except.error ())
    (fun _ => Except.error ()))).1 rfl

/-- C5: when the search call returns a non-200 response or throws,
`IntelXService.search` returns `None` and `main` (lines 181-184) stops
right after logging, so the run ends with no record listed or printed. -/
theorem claim_C5 (w : World)
    (hkey : strFalsy w.intelxKey = false)
    (hbad : w.searchResp = Except.error ()
      ∨ ∃ r, w.searchResp = Except.ok r ∧ r.status ≠ 200) :
    search w.searchResp = none ∧ main_run w = Except.ok [] := by
  have hs : search w.searchResp = none := by
    rcases hbad with h | ⟨r, hr, hst⟩
    · rw [h]; rfl
    · rw [hr]; simp [search, hst]
  exact ⟨hs, by simp [main_run, intelx_init, hkey, hs]⟩

/-- C5 witness: instantiation at a 500 search response. -/
theorem claim_C5_witness :
    search (Except.ok (SearchResp.mk 500 (Except.ok (some "abc")))) = none
    ∧ main_run (World.mk (some "k") (some "k2")
        (Except.ok (SearchResp.mk 500 (Except.ok (some "abc"))))
        (Except.ok (ResultsResp.mk 200 (Except.ok [])))
        (fun _ => Except.error ()) (fun _ => Except.error ())
        (fun _ => Except.error ())) = Except.ok [] :=
  claim_C5 (World.mk (some "k") (some "k2")
      (Except.ok (SearchResp.mk 500 (Except.ok (some "abc"))))
      (Except.ok (ResultsResp.mk 200 (Except.ok [])))
      (fun _ => Except.error ()) (fun _ => Except.error ())
      (fun _ => Except.error ()))
    rfl (Or.inr ⟨SearchResp.mk 500 (Except.ok (some "abc")), rfl, by decide⟩)

/-- C6: once the run reaches the listing phase, the loop of line 190 runs
over `enumerate(records[:5])`: exactly `min N 5` records are processed,
in the order returned by the listing call. -/
theorem claim_C6 (w : World) (sid : String)
    (hkey : strFalsy w.intelxKey = false)
    (hsid : search w.searchResp = some sid)
    (hne : sid.isEmpty = false) :
    ∃ outs, main_run w = Except.ok outs
      ∧ outs.map RecOutcome.record = (get_results w.resultsResp).take 5
      ∧ outs.length = min (get_results w.resultsResp).length 5 := by
  refine ⟨((get_results w.resultsResp).take 5).enum.map (fun p =>
      recordStep p.2 (get_preview (w.previewAt p.1) (w.viewAt p.1))
        (ai_init w.openaiKey) (w.aiAt p.1)), ?_, ?_, ?_⟩
  · simp [main_run, intelx_init, hkey, hsid, hne]
  · rw [List.map_map]
    rw [List.map_congr_left (fun p _ => recordStep_record p.2 _ _ _)]
    exact List.enum_map_snd _
  · simp only [List.length_map, List.enum_length, List.length_take]
    exact Nat.min_comm _ _

/-- C6 witness: instantiation at a listing of two records. -/
theorem claim_C6_witness :
    ∃ outs, main_run (World.mk (some "k") (some "k2")
        (Except.ok (SearchResp.mk 200 (Except.ok (some "abc"))))
        (Except.ok (ResultsResp.mk 200 (Except.ok
          [Rec.mk (some "a") none none none none,
           Rec.mk (some "b") none none none none])))
        (fun _ => Except.error ()) (fun _ => Except.error ())
        (fun _ => Except.error ())) = Except.ok outs
      ∧ outs.map RecOutcome.record =
          (get_results (Except.ok (ResultsResp.mk 200 (Except.ok
            [Rec.mk (some "a") none none none none,
             Rec.mk (some "b") none none none none])))).take 5
      ∧ outs.length = min (get_results (Except.ok (ResultsResp.mk 200 (Except.ok
            [Rec.mk (some "a") none none none none,
             Rec.mk (some "b") none none none none])))).length 5 :=
  claim_C6 (World.mk (some "k") (some "k2")
      (Except.ok (SearchResp.mk 200 (Except.ok (some "abc"))))
      (Except.ok (ResultsResp.mk 200 (Except.ok
        [Rec.mk (some "a") none none none none,
         Rec.mk (some "b") none none none none])))
      (fun _ => Except.error ()) (fun _ => Except.error ())
      (fun _ => Except.error ())) "abc" rfl rfl rfl

/-- C7: `AIAnalyzer.analyze_dump` (lines 132-170) returns `None` exactly
when the AI integration is disabled, the completion call throws, the brace
search of line 165 finds nothing, or `json.loads` fails on the extracted
substring; in every other case it returns the parsed object. -/
theorem claim_C7 (active : Bool) (call : Except Unit (List Char)) :
    (analyze_dump active call = none ↔
        active = false
        ∨ call = Except.error ()
        ∨ (∃ raw, call = Except.ok raw ∧ extractBraces raw = none)
        ∨ (∃ raw sub, call = Except.ok raw ∧ extractBraces raw = some sub
            ∧ json_loads sub = none))
    ∧ (∀ raw sub v, active = true → call = Except.ok raw →
        extractBraces raw = some sub → json_loads sub = some v →
        analyze_dump active call = some v) := by
  constructor
  · constructor
    · intro h
      cases active with
      | false => exact Or.inl rfl
      | true =>
        cases call with
        | error e => exact Or.inr (Or.inl rfl)
        | ok raw =>
          simp only [analyze_dump, extract_and_parse] at h
          cases he : extractBraces raw with
          | none => exact Or.inr (Or.inr (Or.inl ⟨raw, rfl, he⟩))
          | some sub =>
            rw [he] at h
            exact Or.inr (Or.inr (Or.inr ⟨raw, sub, rfl, he, by simpa using h⟩))
    · intro h
      rcases h with h | h | ⟨raw, hraw, he⟩ | ⟨raw, sub, hraw, he, hj⟩
      · simp [analyze_dump, h]
      · cases active <;> simp [analyze_dump, h]
      · cases active <;> simp [analyze_dump, hraw, extract_and_parse, he]
      · cases active <;> simp [analyze_dump, hraw, extract_and_parse, he, hj]
  · intro raw sub v ha hc he hj
    simp [analyze_dump, ha, hc, extract_and_parse, he, hj]

/-- C7 witness: instantiation where the response is itself a minimal JSON
object. -/
theorem claim_C7_witness :
    analyze_dump true (Except.ok ['{', '}']) = some (Json.obj []) :=
  (claim_C7 true (Except.ok ['{', '}'])).2 ['{', '}'] ['{', '}'] (Json.obj [])
    rfl rfl rfl rfl

/-- C8: the claim says null content is returned only when both attempts
fail or throw, but when the preview request throws, the view endpoint is
never consulted (the single `try` of lines 109-121 wraps both calls): here
the fetcher returns `None` although the view attempt would have returned a
200 response. -/
theorem claim_C8_counterexample :
    get_preview (Except.error ())
        (Except.ok (TextResp.mk 200 "view endpoint body")) = none
    ∧ view_attempt_fails (Except.ok (TextResp.mk 200 "view endpoint body"))
        = false := by
  exact ⟨rfl, rfl⟩

/-- C8 (amended): on fallback, any 200 view response body is accepted,
even an empty one; and null content is returned exactly when the preview
request throws, or the preview response fails the acceptance condition and
the view attempt fails or throws. -/
theorem claim_C8_amended (p v : Except Unit TextResp) :
    (∀ r rv, p = Except.ok r → ¬(r.status = 200 ∧ 10 < r.text.length) →
        v = Except.ok rv → rv.status = 200 → get_preview p v = some rv.text)
    ∧ (get_preview p v = none ↔
        p = Except.error ()
        ∨ ∃ r, p = Except.ok r ∧ ¬(r.status = 200 ∧ 10 < r.text.length)
            ∧ view_attempt_fails v = true) := by
  constructor
  · intro r rv hp hacc hv hst
    subst hp
    subst hv
    simp [get_preview, hacc, hst]
  · cases p with
    | error e => simp [get_preview]
    | ok r =>
      by_cases hacc : r.status = 200 ∧ 10 < r.text.length
      · simp [get_preview, hacc]
      · have hacc2 : r.status = 200 → r.text.length ≤ 10 := by
          intro h
          by_contra hgt
          exact hacc ⟨h, by omega⟩
        cases v with
        | error e =>
          simp [get_preview, view_attempt_fails, hacc]
          exact hacc2
        | ok rv =>
          by_cases hst : rv.status = 200
          · simp [get_preview, view_attempt_fails, hacc, hst]
          · simp [get_preview, view_attempt_fails, hacc, hst]
            exact hacc2

/-- C8 witness: a short 200 preview falls back to a 200 view response with
an empty body, which is accepted. -/
theorem claim_C8_witness :
    get_preview (Except.ok (TextResp.mk 200 "short"))
        (Except.ok (TextResp.mk 200 "")) = some "" :=
  (claim_C8_amended (Except.ok (TextResp.mk 200 "short"))
      (Except.ok (TextResp.mk 200 ""))).1
    (TextResp.mk 200 "short") (TextResp.mk 200 "") rfl (by decide) rfl rfl

/-- C9: an empty string is a possible `get_preview` result (empty 200 view
body after fallback), and the driver's falsiness test of line 199 treats
it exactly like `None`: the warning is logged, no preview snippet is
printed, the summarizer is not invoked, and no analysis is produced. -/
theorem claim_C9 (rec : Rec) (active : Bool) (resp : Except Unit (List Char)) :
    get_preview (Except.ok (TextResp.mk 200 ""))
        (Except.ok (TextResp.mk 200 "")) = some ""
    ∧ recordStep rec (some "") active resp = recordStep rec none active resp
    ∧ recordStep rec none active resp =
        RecOutcome.mk rec true none false none := by
  exact ⟨rfl, rfl, rfl⟩

/-- C10: each pipeline operation maps every modelled exception path to its
null value (`None` for `search`, `[]` for `get_results`, `None` for
`get_preview` and `analyze_dump`); as total Lean functions they propagate
no exception once construction has succeeded. -/
theorem claim_C10 :
    search (Except.error ()) = none
    ∧ (∀ st, search (Except.ok (SearchResp.mk st (Except.error ()))) = none)
    ∧ get_results (Except.error ()) = []
    ∧ (∀ st, get_results (Except.ok (ResultsResp.mk st (Except.error ()))) = [])
    ∧ (∀ v, get_preview (Except.error ()) v = none)
    ∧ (∀ r, ¬(r.status = 200 ∧ 10 < r.text.length) →
        get_preview (Except.ok r) (Except.error ()) = none)
    ∧ (∀ a, analyze_dump a (Except.error ()) = none) := by
  refine ⟨rfl, fun st => ?_, rfl, fun st => ?_, fun v => rfl, fun r hr => ?_,
    fun a => ?_⟩
  · by_cases h : st = 200 <;> simp [search, h]
  · by_cases h : st = 200 <;> simp [get_results, h]
  · simp [get_preview, hr]
  · cases a <;> rfl

/-- C10 witness: instantiation of the preview conjunct at a 503 preview
response followed by a throwing view request. -/
theorem claim_C10_witness :
    get_preview (Except.ok (TextResp.mk 503 "x")) (Except.error ()) = none :=
  claim_C10.2.2.2.2.2.1 (TextResp.mk 503 "x") (by decide)

/-- C1: the greedy pattern of line 165 spans from the first opening brace
to the last closing brace of the whole response, so prose containing a
brace breaks the extraction: this response contains the well-formed object
but a stray closing brace in the trailing prose makes the extracted
substring unparseable, and the summarizer yields nothing instead of the
object. -/
theorem claim_C1_counterexample :
    json_loads ['{', '"', 'a', '"', ':', '1', '}']
      = some (Json.obj [(['a'], Json.num ['1'])])
    ∧ ['{', '"', 'a', '"', ':', '1', '}', ' ', '}']
      = [] ++ ['{', '"', 'a', '"', ':', '1', '}'] ++ [' ', '}']
    ∧ extract_and_parse ['{', '"', 'a', '"', ':', '1', '}', ' ', '}'] = none := by
  exact ⟨rfl, rfl, rfl⟩

/-- C1 (amended): when the surrounding prose contains no opening brace
before the object and no closing brace after it, the greedy extraction
step recovers exactly the object's text and parsing returns the object
unchanged. -/
theorem claim_C1_amended (pre obj post : List Char) (v : Json)
    (hv : json_loads obj = some v)
    (hhead : obj.head? = some '{') (hlast : obj.getLast? = some '}')
    (hpre : '{' ∉ pre) (hpost : '}' ∉ post) :
    extract_and_parse (pre ++ obj ++ post) = some v := by
  unfold extract_and_parse
  rw [extractBraces_append hhead hlast hpre hpost]
  exact hv

/-- C1 witness: instantiation with brace-free prose around a one-member
object. -/
theorem claim_C1_witness :
    extract_and_parse (['x', ' '] ++ ['{', '"', 'a', '"', ':', '1', '}']
      ++ [' ', 'y']) = some (Json.obj [(['a'], Json.num ['1'])]) :=
  claim_C1_amended ['x', ' '] ['{', '"', 'a', '"', ':', '1', '}'] [' ', 'y']
    (Json.obj [(['a'], Json.num ['1'])]) rfl rfl rfl (by decide) (by decide)
